import Mathlib

/-!
# testserver: the request-logging handler `postHandler`

A shallow embedding of `src/testserver/main.go`.

Go strings and byte slices are byte sequences; they are held here as `String`s
(one character per byte), so `string(body)` is the identity and `len(body) > 0`
is `body.length > 0`.

The handler has no return value: everything it does is an effect.  A call is
therefore embedded as the ordered list of effects it performs (`Event`), built
by explicit state passing over a `Frame` that also holds the deferred calls.
What an observer sees (the bytes on standard output, the messages given to the
standard logger, the HTTP response, whether the body was closed) is read off
that list.
-/

namespace TestServer

/-! ## Library constants (`net/http`) -/

/-- The constant `http.MethodPost`. -/
def MethodPost : String := "POST"

/-- The constant `http.StatusOK`. -/
def StatusOK : Nat := 200

/-- The constant `http.StatusMethodNotAllowed`. -/
def StatusMethodNotAllowed : Nat := 405

/-- The constant `http.StatusInternalServerError`. -/
def StatusInternalServerError : Nat := 500

/-! ## Data model -/

/-- The request body `r.Body` as `io.ReadAll` sees it: the bytes it delivers and
the error the read ends with (`none` for a clean end of stream, the `Error()`
text of the error otherwise). -/
structure ReadCloser where
  data : String
  err : Option String
  deriving DecidableEq, Repr

/-- The fields of `*http.Request` the handler reads.  `URL` is the result of
`r.URL.String()`.  `Header` lists the entries of the map `r.Header` in the order
the `range` statement of this call visits them (Go leaves that order open, so
every theorem quantifies over all lists). -/
structure Request where
  Method : String
  URL : String
  RemoteAddr : String
  ContentLength : Int
  Header : List (String × List String)
  Body : ReadCloser
  deriving DecidableEq, Repr

/-- One effect of the handler, in program order. -/
inductive Event where
  /-- One write to `os.Stdout` (one `fmt.Println` or `fmt.Printf` call). -/
  | stdout (s : String)
  /-- One message handed to the standard logger by `log.Printf`. -/
  | logger (s : String)
  /-- The call `io.ReadAll(r.Body)`. -/
  | readAll
  /-- The call `w.Header().Set(k, v)`. -/
  | headerSet (k v : String)
  /-- The call `w.WriteHeader(code)`. -/
  | writeHeader (code : Nat)
  /-- One write of bytes to the response writer `w`. -/
  | write (s : String)
  /-- The call `r.Body.Close()`. -/
  | closeBody
  deriving DecidableEq, Repr

/-- The state of one running call: the effects performed so far and the calls
registered with `defer`, most recent first. -/
structure Frame where
  trace : List Event
  deferred : List Event
  deriving DecidableEq, Repr

/-! ## Formatting (`fmt`) -/

/-- An operand of a formatting call. -/
inductive Arg where
  | str (s : String)
  | int (n : Int)
  deriving DecidableEq, Repr

/-- Expansion of a format: `%s` and `%v` take a string operand (for `%v` the
`Error()` text of an error value), `%d` takes an integer operand printed in
decimal; every other character is copied. -/
def sprintfGo : List Char → List Arg → List Char
  | '%' :: 's' :: rest, Arg.str s :: args => s.data ++ sprintfGo rest args
  | '%' :: 'v' :: rest, Arg.str s :: args => s.data ++ sprintfGo rest args
  | '%' :: 'd' :: rest, Arg.int n :: args => (toString n).data ++ sprintfGo rest args
  | c :: rest, args => c :: sprintfGo rest args
  | [], _ => []

/-- The function `fmt.Sprintf`, for the verbs the program uses. -/
def Sprintf (format : String) (args : List Arg) : String :=
  String.mk (sprintfGo format.data args)

/-! ## Effects -/

/-- Append one effect to the trace. -/
def emit (e : Event) (f : Frame) : Frame :=
  { f with trace := f.trace ++ [e] }

/-- The call `fmt.Println(s)`: the operand followed by a newline, in one write. -/
def Println (s : String) (f : Frame) : Frame :=
  emit (Event.stdout (s ++ "\n")) f

/-- The call `fmt.Printf(format, args...)`. -/
def Printf (format : String) (args : List Arg) (f : Frame) : Frame :=
  emit (Event.stdout (Sprintf format args)) f

/-- The call `log.Printf(format, args...)`: the formatted message goes to the
standard logger, which prints it on its own line after a time stamp. -/
def logPrintf (format : String) (args : List Arg) (f : Frame) : Frame :=
  emit (Event.logger (Sprintf format args)) f

/-- The call `fmt.Fprintf(w, format, args...)`. -/
def Fprintf (format : String) (args : List Arg) (f : Frame) : Frame :=
  emit (Event.write (Sprintf format args)) f

/-- The call `http.Error(w, msg, code)`: it sets the plain-text content type and
the no-sniff option, writes the status line and prints `msg` with
`fmt.Fprintln`. -/
def Error (msg : String) (code : Nat) (f : Frame) : Frame :=
  let f := emit (Event.headerSet "Content-Type" "text/plain; charset=utf-8") f
  let f := emit (Event.headerSet "X-Content-Type-Options" "nosniff") f
  let f := emit (Event.writeHeader code) f
  emit (Event.write (msg ++ "\n")) f

/-- The call `io.ReadAll(b)`: the bytes read and the error, if any. -/
def ReadAll (b : ReadCloser) (f : Frame) : String × Option String × Frame :=
  (b.data, b.err, emit Event.readAll f)

/-- The statement `defer e`. -/
def defer (e : Event) (f : Frame) : Frame :=
  { f with deferred := e :: f.deferred }

/-- Leaving the function: the deferred calls run, last registered first. -/
def ret (f : Frame) : List Event :=
  f.trace ++ f.deferred

/-! ## The handler -/

/-- The header loop of `postHandler` (lines 25-29): for every entry of the map
and every value of the entry, one `fmt.Printf("%s: %s\n", name, value)`. -/
def logHeaders (h : List (String × List String)) (f : Frame) : Frame :=
  h.foldl (fun f entry =>
    entry.2.foldl (fun f value =>
      Printf "%s: %s\n" [Arg.str entry.1, Arg.str value] f) f) f

/-- The function `postHandler` of `main.go`: the effects of one call, in order. -/
def postHandler (r : Request) : List Event :=
  let f : Frame := { trace := [], deferred := [] }
  if r.Method ≠ MethodPost then
    let f := Error "Method not allowed" StatusMethodNotAllowed f
    ret f
  else
    let f := Println "=== Incoming POST Request ===" f
    let f := Printf "URL: %s\n" [Arg.str r.URL] f
    let f := Printf "Method: %s\n" [Arg.str r.Method] f
    let f := Printf "Remote Address: %s\n" [Arg.str r.RemoteAddr] f
    let f := Printf "Content-Length: %d\n" [Arg.int r.ContentLength] f
    let f := Println "\n--- Headers ---" f
    let f := logHeaders r.Header f
    let f := Println "\n--- Body ---" f
    match ReadAll r.Body f with
    | (_, some err, f) =>
      let f := logPrintf "Error reading body: %v" [Arg.str err] f
      let f := Error "Error reading body" StatusInternalServerError f
      ret f
    | (body, none, f) =>
      let f := defer Event.closeBody f
      let f :=
        if body.length > 0 then
          Printf "Body content:\n%s\n" [Arg.str body] f
        else
          Println "Body is empty" f
      let f := Println "=== End of Request ===\n" f
      let f := emit (Event.headerSet "Content-Type" "application/json") f
      let f := emit (Event.writeHeader StatusOK) f
      let f := Fprintf "\x7b\"status\": \"received\", \"message\": \"Request logged successfully\"\x7d" [] f
      ret f

/-! ## Observations on a trace -/

/-- The writes to standard output, in order. -/
def stdoutWrites : List Event → List String
  | [] => []
  | Event.stdout s :: t => s :: stdoutWrites t
  | _ :: t => stdoutWrites t

/-- The messages handed to the standard logger, in order. -/
def loggerMsgs : List Event → List String
  | [] => []
  | Event.logger s :: t => s :: loggerMsgs t
  | _ :: t => loggerMsgs t

/-- The text standard output holds after the call when it held `before`. -/
def consoleAfter (before : String) (t : List Event) : String :=
  before ++ String.join (stdoutWrites t)

/-- The text the call itself puts on standard output. -/
def consoleText (t : List Event) : String :=
  consoleAfter "" t

/-- The state of an `http.ResponseWriter`: the header map `w.Header()` (only
`Set` is used, so one value per name), the status line once written, the
headers that went out with it, and the body bytes written. -/
structure ResponseWriter where
  header : List (String × String)
  status : Option Nat
  sent : List (String × String)
  body : String
  deriving DecidableEq, Repr

/-- The response writer the server hands to the handler. -/
def ResponseWriter.fresh : ResponseWriter :=
  { header := [], status := none, sent := [], body := "" }

/-- The method `WriteHeader`: the first call fixes the status and sends the
header map as it stands; later calls change nothing. -/
def ResponseWriter.WriteHeader (w : ResponseWriter) (code : Nat) : ResponseWriter :=
  match w.status with
  | none => { w with status := some code, sent := w.header }
  | some _ => w

/-- The effect of one event on the response writer.  A write before any
`WriteHeader` first sends status 200. -/
def ResponseWriter.step (w : ResponseWriter) : Event → ResponseWriter
  | Event.headerSet k v => { w with header := (k, v) :: w.header.filter (fun e => e.1 ≠ k) }
  | Event.writeHeader code => w.WriteHeader code
  | Event.write s =>
    let w := w.WriteHeader StatusOK
    { w with body := w.body ++ s }
  | _ => w

/-- The response a trace produces on a fresh response writer. -/
def response (t : List Event) : ResponseWriter :=
  t.foldl ResponseWriter.step ResponseWriter.fresh

/-- The value of a header sent with the response. -/
def ResponseWriter.sentHeader (w : ResponseWriter) (k : String) : Option String :=
  (w.sent.find? (fun e => e.1 = k)).map (fun e => e.2)

/-- The acknowledgment the handler answers a logged request with. -/
def ackJSON : String :=
  "\x7b\"status\": \"received\", \"message\": \"Request logged successfully\"\x7d"

/-- Split a text at its newline characters. -/
def splitLines : List Char → List (List Char)
  | [] => [[]]
  | c :: cs =>
    if c = '\n' then [] :: splitLines cs
    else
      match splitLines cs with
      | [] => [[c]]
      | l :: ls => (c :: l) :: ls

/-- The lines of a text (a text ending in a newline has a last, blank line). -/
def lines (s : String) : List String :=
  (splitLines s.data).map String.mk

/-- A text without a newline character. -/
def singleLine (s : String) : Prop :=
  '\n' ∉ s.data

instance (s : String) : Decidable (singleLine s) := by
  unfold singleLine; infer_instance

/-- The request line and header fields hold no line break, as for every request
the HTTP server parses off a connection. -/
def Request.SingleLine (r : Request) : Prop :=
  singleLine r.URL ∧ singleLine r.RemoteAddr ∧
    ∀ e ∈ r.Header, singleLine e.1 ∧ ∀ v ∈ e.2, singleLine v

instance (r : Request) : Decidable r.SingleLine := by
  unfold Request.SingleLine; infer_instance

/-- The header lines as the specification gives them: for each header name, one
line `name: value` per value, in the order the values are held. -/
def headerLines (h : List (String × List String)) : List String :=
  h.flatMap (fun e => e.2.map (fun v => e.1 ++ ": " ++ v))

/-- The write that logs the body: the marker and the bytes, or the notice. -/
def bodyLine (body : String) : String :=
  if body.length > 0 then "Body content:\n" ++ body else "Body is empty"

/-- The lines that open the log block, up to the heading of the header list. -/
def headLines (r : Request) : List String :=
  ["=== Incoming POST Request ===",
   "URL: " ++ r.URL,
   "Method: " ++ r.Method,
   "Remote Address: " ++ r.RemoteAddr,
   "Content-Length: " ++ toString r.ContentLength,
   "\n--- Headers ---"]

/-- A line as one write to standard output: the text and its newline. -/
def outLine (l : String) : Event :=
  Event.stdout (l ++ "\n")

/-- The effects of `http.Error(w, msg, code)`. -/
def errorEvents (msg : String) (code : Nat) : List Event :=
  [Event.headerSet "Content-Type" "text/plain; charset=utf-8",
   Event.headerSet "X-Content-Type-Options" "nosniff",
   Event.writeHeader code,
   Event.write (msg ++ "\n")]

/-- A line that carries request data: every such line the handler prints has
the shape `label: value`, so it holds a colon followed by a space. -/
def fieldLine (l : String) : Prop :=
  [':', ' '] <:+: l.data

instance (l : String) : Decidable (fieldLine l) := by
  unfold fieldLine; infer_instance

/-- The four lines of request data that follow the start marker. -/
def metaLines (r : Request) : List String :=
  ["URL: " ++ r.URL, "Method: POST", "Remote Address: " ++ r.RemoteAddr,
   "Content-Length: " ++ toString r.ContentLength]

/-- The last line of a text that is not blank. -/
def lastNonBlank (ls : List String) : Option String :=
  (ls.filter (fun l => l ≠ "")).getLast?

/-- The lines the body contributes to the log: its own lines when it has bytes,
none otherwise. -/
def bodyDataLines (body : String) : List String :=
  if body.length > 0 then lines body else []

/-! ## Sample requests -/

/-- A `GET` request. -/
def sampleGet : Request :=
  { Method := "GET", URL := "/status?verbose=1", RemoteAddr := "127.0.0.1:50412",
    ContentLength := 0, Header := [("Accept", ["*/*"])], Body := { data := "", err := none } }

/-- A `POST` request with body `hello world` and two values under `X-Custom`. -/
def samplePost : Request :=
  { Method := "POST", URL := "/sdapi/v1/txt2img", RemoteAddr := "127.0.0.1:50413",
    ContentLength := 11,
    Header := [("X-Custom", ["a", "b"]), ("Content-Type", ["text/plain"])],
    Body := { data := "hello world", err := none } }

/-- A `POST` request with an empty body and no declared length. -/
def sampleEmpty : Request :=
  { Method := "POST", URL := "/", RemoteAddr := "127.0.0.1:50414",
    ContentLength := -1, Header := [("Accept", ["*/*"])],
    Body := { data := "", err := none } }

/-- A `POST` request whose connection breaks while the body is read. -/
def sampleAborted : Request :=
  { Method := "POST", URL := "/upload", RemoteAddr := "127.0.0.1:50415",
    ContentLength := 4096, Header := [("X-Custom", ["a", "b"])],
    Body := { data := "hel", err := some "unexpected EOF" } }

/-- A `POST` request whose body is the text `Body is empty`. -/
def sampleEcho : Request :=
  { Method := "POST", URL := "/", RemoteAddr := "127.0.0.1:50416",
    ContentLength := 13, Header := [],
    Body := { data := "Body is empty", err := none } }

/-! ## The trace of each path -/

theorem logHeaders_deferred (h : List (String × List String)) (f : Frame) :
    (logHeaders h f).deferred = f.deferred := by
  unfold logHeaders
  induction h generalizing f with
  | nil => rfl
  | cons e h ih =>
    rw [List.foldl_cons, ih]
    generalize e.2 = vs
    induction vs generalizing f with
    | nil => rfl
    | cons v vs ihv => rw [List.foldl_cons, ihv]; rfl

theorem logHeaders_trace (h : List (String × List String)) (f : Frame) :
    (logHeaders h f).trace
      = f.trace ++ (headerLines h).map (fun l => Event.stdout (l ++ "\n")) := by
  unfold logHeaders headerLines
  induction h generalizing f with
  | nil => simp
  | cons e h ih =>
    rw [List.foldl_cons, ih]
    have inner : ∀ (vs : List String) (g : Frame),
        (vs.foldl (fun f value =>
          Printf "%s: %s\n" [Arg.str e.1, Arg.str value] f) g).trace
          = g.trace ++ vs.map (fun v => Event.stdout (e.1 ++ ": " ++ v ++ "\n")) := by
      intro vs
      induction vs with
      | nil => intro g; simp
      | cons v vs ihv =>
        intro g
        rw [List.foldl_cons, ihv]
        have hp : (Printf "%s: %s\n" [Arg.str e.1, Arg.str v] g).trace
            = g.trace ++ [Event.stdout (e.1 ++ ": " ++ v ++ "\n")] := by
          show g.trace ++ [Event.stdout (Sprintf "%s: %s\n" [Arg.str e.1, Arg.str v])] = _
          have : Sprintf "%s: %s\n" [Arg.str e.1, Arg.str v] = e.1 ++ ": " ++ v ++ "\n" := by
            apply String.ext
            simp [Sprintf, sprintfGo, String.data_append]
          rw [this]
        rw [hp]; simp
    rw [inner]
    simp [List.flatMap_cons, List.map_append, List.map_map, Function.comp_def]

theorem postHandler_of_not_post (r : Request) (h : r.Method ≠ MethodPost) :
    postHandler r = errorEvents "Method not allowed" StatusMethodNotAllowed := by
  unfold postHandler
  simp only [h, ne_eq, not_false_eq_true, if_true]
  rfl

theorem postHandler_of_read_error (r : Request) (e : String)
    (h : r.Method = MethodPost) (he : r.Body.err = some e) :
    postHandler r
      = (headLines r ++ headerLines r.Header ++ ["\n--- Body ---"]).map outLine
        ++ Event.readAll :: Event.logger ("Error reading body: " ++ e)
          :: errorEvents "Error reading body" StatusInternalServerError := by
  unfold postHandler
  simp only [h, ne_eq, not_true_eq_false, if_false, ReadAll, he]
  simp only [ret, Error, logPrintf, emit, Println, logHeaders_trace, logHeaders_deferred,
    Printf]
  have h1 : Sprintf "URL: %s\n" [Arg.str r.URL] = "URL: " ++ r.URL ++ "\n" := rfl
  have h2 : Sprintf "Method: %s\n" [Arg.str MethodPost] = "Method: " ++ MethodPost ++ "\n" := rfl
  have h3 : Sprintf "Remote Address: %s\n" [Arg.str r.RemoteAddr]
      = "Remote Address: " ++ r.RemoteAddr ++ "\n" := rfl
  have h4 : Sprintf "Content-Length: %d\n" [Arg.int r.ContentLength]
      = "Content-Length: " ++ toString r.ContentLength ++ "\n" := rfl
  have h5 : Sprintf "Error reading body: %v" [Arg.str e] = "Error reading body: " ++ e := by
    apply String.ext
    simp [Sprintf, sprintfGo, String.data_append]
  rw [h1, h2, h3, h4, h5]
  simp [headLines, outLine, errorEvents, h]

theorem postHandler_of_read_ok (r : Request)
    (h : r.Method = MethodPost) (he : r.Body.err = none) :
    postHandler r
      = (headLines r ++ headerLines r.Header ++ ["\n--- Body ---"]).map outLine
        ++ [Event.readAll, outLine (bodyLine r.Body.data), outLine "=== End of Request ===\n",
            Event.headerSet "Content-Type" "application/json",
            Event.writeHeader StatusOK, Event.write ackJSON, Event.closeBody] := by
  unfold postHandler
  simp only [h, ne_eq, not_true_eq_false, if_false, ReadAll, he]
  have h1 : Sprintf "URL: %s\n" [Arg.str r.URL] = "URL: " ++ r.URL ++ "\n" := rfl
  have h2 : Sprintf "Method: %s\n" [Arg.str MethodPost] = "Method: " ++ MethodPost ++ "\n" := rfl
  have h3 : Sprintf "Remote Address: %s\n" [Arg.str r.RemoteAddr]
      = "Remote Address: " ++ r.RemoteAddr ++ "\n" := rfl
  have h4 : Sprintf "Content-Length: %d\n" [Arg.int r.ContentLength]
      = "Content-Length: " ++ toString r.ContentLength ++ "\n" := rfl
  have h5 : Sprintf "Body content:\n%s\n" [Arg.str r.Body.data]
      = "Body content:\n" ++ r.Body.data ++ "\n" := rfl
  have h6 : Sprintf
      "\x7b\"status\": \"received\", \"message\": \"Request logged successfully\"\x7d" []
      = ackJSON := by decide
  by_cases hb : r.Body.data.length > 0
  · simp only [hb, if_true, ret, Fprintf, defer, emit, Println, logHeaders_trace,
      logHeaders_deferred, Printf]
    rw [h1, h2, h3, h4, h5, h6]
    simp [headLines, outLine, bodyLine, hb, h]
  · simp only [hb, if_false, ret, Fprintf, defer, emit, Println, logHeaders_trace,
      logHeaders_deferred, Printf]
    rw [h1, h2, h3, h4, h6]
    simp [headLines, outLine, bodyLine, hb, h]

/-! ## Observations of the three paths -/

theorem stdoutWrites_append (a b : List Event) :
    stdoutWrites (a ++ b) = stdoutWrites a ++ stdoutWrites b := by
  induction a with
  | nil => rfl
  | cons e a ih => cases e <;> simp [stdoutWrites, ih]

theorem stdoutWrites_outLines (ls : List String) :
    stdoutWrites (ls.map outLine) = ls.map (fun l => l ++ "\n") := by
  induction ls with
  | nil => rfl
  | cons l ls ih => simp [outLine, stdoutWrites] at ih ⊢; exact ih

theorem loggerMsgs_append (a b : List Event) :
    loggerMsgs (a ++ b) = loggerMsgs a ++ loggerMsgs b := by
  induction a with
  | nil => rfl
  | cons e a ih => cases e <;> simp [loggerMsgs, ih]

theorem loggerMsgs_outLines (ls : List String) : loggerMsgs (ls.map outLine) = [] := by
  induction ls with
  | nil => rfl
  | cons l ls ih => simp [outLine, loggerMsgs] at ih ⊢; exact ih

theorem foldl_step_outLines (ls : List String) (w : ResponseWriter) :
    (ls.map outLine).foldl ResponseWriter.step w = w := by
  induction ls with
  | nil => rfl
  | cons l ls ih => simp [outLine, ResponseWriter.step] at ih ⊢; exact ih

theorem response_outLines_append (ls : List String) (t : List Event) :
    response (ls.map outLine ++ t) = response t := by
  unfold response
  rw [List.foldl_append, foldl_step_outLines]

theorem response_of_not_post (r : Request) (h : r.Method ≠ MethodPost) :
    response (postHandler r)
      = { header := [("X-Content-Type-Options", "nosniff"),
                     ("Content-Type", "text/plain; charset=utf-8")],
          status := some 405,
          sent := [("X-Content-Type-Options", "nosniff"),
                   ("Content-Type", "text/plain; charset=utf-8")],
          body := "Method not allowed\n" } := by
  rw [postHandler_of_not_post r h]
  decide

theorem response_of_read_error (r : Request) (e : String)
    (h : r.Method = MethodPost) (he : r.Body.err = some e) :
    response (postHandler r)
      = { header := [("X-Content-Type-Options", "nosniff"),
                     ("Content-Type", "text/plain; charset=utf-8")],
          status := some 500,
          sent := [("X-Content-Type-Options", "nosniff"),
                   ("Content-Type", "text/plain; charset=utf-8")],
          body := "Error reading body\n" } := by
  rw [postHandler_of_read_error r e h he, response_outLines_append]
  rfl

theorem response_of_read_ok (r : Request)
    (h : r.Method = MethodPost) (he : r.Body.err = none) :
    response (postHandler r)
      = { header := [("Content-Type", "application/json")],
          status := some 200,
          sent := [("Content-Type", "application/json")],
          body := ackJSON } := by
  rw [postHandler_of_read_ok r h he, response_outLines_append]
  rfl

/-! ## Lines of a text -/

theorem splitLines_ne_nil (a : List Char) : splitLines a ≠ [] := by
  induction a with
  | nil => simp [splitLines]
  | cons c a ih =>
    rw [splitLines]
    split_ifs
    · simp
    · cases hs : splitLines a <;> simp

theorem splitLines_append_newline (a b : List Char) :
    splitLines (a ++ '\n' :: b) = splitLines a ++ splitLines b := by
  induction a with
  | nil => simp [splitLines]
  | cons c a ih =>
    rw [List.cons_append, splitLines, splitLines, ih]
    split_ifs
    · rfl
    · cases hs : splitLines a with
      | nil => exact absurd hs (splitLines_ne_nil a)
      | cons l ls => rfl

theorem splitLines_of_no_newline (a : List Char) (h : '\n' ∉ a) : splitLines a = [a] := by
  induction a with
  | nil => rfl
  | cons c a ih =>
    simp only [List.mem_cons, not_or] at h
    rw [splitLines, ih h.2]
    simp [Ne.symm h.1]

theorem lines_of_singleLine (a : String) (h : singleLine a) : lines a = [a] := by
  unfold lines
  rw [splitLines_of_no_newline a.data h]
  rfl

theorem lines_append_newline (a b : String) :
    lines (a ++ "\n" ++ b) = lines a ++ lines b := by
  unfold lines
  have : (a ++ "\n" ++ b).data = a.data ++ '\n' :: b.data := by
    simp [String.data_append]
  rw [this, splitLines_append_newline, List.map_append]

theorem lines_join_newline (ls : List String) :
    lines (String.join (ls.map (fun l => l ++ "\n"))) = ls.flatMap lines ++ [""] := by
  induction ls with
  | nil => rfl
  | cons l ls ih =>
    have : String.join ((l :: ls).map (fun l => l ++ "\n"))
        = l ++ "\n" ++ String.join (ls.map (fun l => l ++ "\n")) := by
      apply String.ext
      simp [String.data_append]
    rw [this, lines_append_newline, ih, List.flatMap_cons, List.append_assoc]

theorem singleLine_append (a b : String) (ha : singleLine a) (hb : singleLine b) :
    singleLine (a ++ b) := by
  unfold singleLine at *
  rw [String.data_append]
  simp [ha, hb]

theorem digitChar_ne_newline (k : Nat) (hk : k < 10) : Nat.digitChar k ≠ '\n' := by
  interval_cases k <;> decide

theorem toDigitsCore_no_newline (fuel n : Nat) (ds : List Char) (h : '\n' ∉ ds) :
    '\n' ∉ Nat.toDigitsCore 10 fuel n ds := by
  induction fuel generalizing n ds with
  | zero => simpa [Nat.toDigitsCore] using h
  | succ fuel ih =>
    rw [Nat.toDigitsCore]
    have hd : '\n' ∉ Nat.digitChar (n % 10) :: ds := by
      simp only [List.mem_cons, not_or]
      exact ⟨fun e => digitChar_ne_newline _ (Nat.mod_lt _ (by decide)) e.symm, h⟩
    split_ifs
    · exact hd
    · exact ih _ _ hd

theorem natRepr_no_newline (n : Nat) : '\n' ∉ (Nat.repr n).data := by
  unfold Nat.repr Nat.toDigits
  simpa [List.asString] using toDigitsCore_no_newline (n + 1) n [] (by simp)

theorem singleLine_intToString (n : Int) : singleLine (toString n) := by
  unfold singleLine
  cases n with
  | ofNat m => exact natRepr_no_newline m
  | negSucc m =>
    show '\n' ∉ ("-" ++ Nat.repr (m + 1)).data
    rw [String.data_append]
    simp only [List.mem_append, not_or]
    exact ⟨by decide, natRepr_no_newline _⟩

theorem singleLine_of_mem_headerLines (h : List (String × List String))
    (hs : ∀ e ∈ h, singleLine e.1 ∧ ∀ v ∈ e.2, singleLine v) :
    ∀ l ∈ headerLines h, singleLine l := by
  intro l hl
  simp only [headerLines, List.mem_flatMap, List.mem_map] at hl
  obtain ⟨e, he, v, hv, rfl⟩ := hl
  exact singleLine_append _ _ (singleLine_append _ _ (hs e he).1 (by decide)) ((hs e he).2 v hv)

theorem flatMap_lines_of_singleLine (ls : List String) (h : ∀ l ∈ ls, singleLine l) :
    ls.flatMap lines = ls := by
  induction ls with
  | nil => rfl
  | cons l ls ih =>
    rw [List.flatMap_cons, lines_of_singleLine l (h l (by simp)),
      ih (fun x hx => h x (by simp [hx]))]
    rfl

/-- The lines of the body as the handler logs them: under the marker when there
are bytes, the notice otherwise. -/
theorem lines_bodyLine (body : String) :
    lines (bodyLine body)
      = if body.length > 0 then "Body content:" :: lines body else ["Body is empty"] := by
  unfold bodyLine
  split_ifs
  · have : "Body content:\n" ++ body = "Body content:" ++ "\n" ++ body := rfl
    rw [this, lines_append_newline]
    rfl
  · rfl

/-- The lines of the head of the log block when the request data hold no line
break. -/
theorem flatMap_lines_headLines (r : Request) (hm : r.Method = MethodPost)
    (hs : r.SingleLine) :
    (headLines r).flatMap lines
      = ["=== Incoming POST Request ===", "URL: " ++ r.URL, "Method: POST",
         "Remote Address: " ++ r.RemoteAddr,
         "Content-Length: " ++ toString r.ContentLength, "", "--- Headers ---"] := by
  have h1 : lines ("URL: " ++ r.URL) = ["URL: " ++ r.URL] :=
    lines_of_singleLine _ (singleLine_append _ _ (by decide) hs.1)
  have h2 : lines ("Remote Address: " ++ r.RemoteAddr) = ["Remote Address: " ++ r.RemoteAddr] :=
    lines_of_singleLine _ (singleLine_append _ _ (by decide) hs.2.1)
  have h3 : lines ("Content-Length: " ++ toString r.ContentLength)
      = ["Content-Length: " ++ toString r.ContentLength] :=
    lines_of_singleLine _ (singleLine_append _ _ (by decide) (singleLine_intToString _))
  have h4 : lines "=== Incoming POST Request ===" = ["=== Incoming POST Request ==="] := by
    decide
  have h5 : lines ("Method: " ++ MethodPost) = ["Method: POST"] := by decide
  have h6 : lines "\n--- Headers ---" = ["", "--- Headers ---"] := by decide
  simp only [headLines, List.flatMap_cons, List.flatMap_nil, hm, h1, h2, h3, h4, h5, h6]
  rfl

/-- The writes to standard output on the two `POST` paths. -/
theorem stdoutWrites_of_read_ok (r : Request)
    (h : r.Method = MethodPost) (he : r.Body.err = none) :
    stdoutWrites (postHandler r)
      = (headLines r ++ headerLines r.Header
          ++ ["\n--- Body ---", bodyLine r.Body.data, "=== End of Request ===\n"]).map
            (fun l => l ++ "\n") := by
  rw [postHandler_of_read_ok r h he, stdoutWrites_append, stdoutWrites_outLines]
  simp [stdoutWrites, outLine]

theorem stdoutWrites_of_read_error (r : Request) (e : String)
    (h : r.Method = MethodPost) (he : r.Body.err = some e) :
    stdoutWrites (postHandler r)
      = (headLines r ++ headerLines r.Header ++ ["\n--- Body ---"]).map
          (fun l => l ++ "\n") := by
  rw [postHandler_of_read_error r e h he, stdoutWrites_append, stdoutWrites_outLines]
  simp [stdoutWrites, errorEvents]

theorem consoleText_eq_join (t : List Event) :
    consoleText t = String.join (stdoutWrites t) := by
  apply String.ext
  simp [consoleText, consoleAfter, String.data_append]

/-- The lines of the console text of a logged request, whatever the data. -/
theorem lines_console_of_read_ok (r : Request)
    (h : r.Method = MethodPost) (he : r.Body.err = none) :
    lines (consoleText (postHandler r))
      = (headLines r).flatMap lines ++ (headerLines r.Header).flatMap lines
        ++ ["", "--- Body ---"] ++ lines (bodyLine r.Body.data)
        ++ ["=== End of Request ===", "", ""] := by
  rw [consoleText_eq_join, stdoutWrites_of_read_ok r h he, lines_join_newline]
  have h1 : lines "\n--- Body ---" = ["", "--- Body ---"] := by decide
  have h2 : lines "=== End of Request ===\n" = ["=== End of Request ===", ""] := by decide
  simp [List.flatMap_append, List.flatMap_cons, h1, h2]

theorem lines_console_of_read_error (r : Request) (e : String)
    (h : r.Method = MethodPost) (he : r.Body.err = some e) :
    lines (consoleText (postHandler r))
      = (headLines r).flatMap lines ++ (headerLines r.Header).flatMap lines
        ++ ["", "--- Body ---", ""] := by
  rw [consoleText_eq_join, stdoutWrites_of_read_error r e h he, lines_join_newline]
  have h1 : lines "\n--- Body ---" = ["", "--- Body ---"] := by decide
  simp [List.flatMap_append, List.flatMap_cons, h1]

/-! ## Data lines and marker lines -/

theorem fieldLine_append_right (a b : String) (h : fieldLine a) : fieldLine (a ++ b) := by
  unfold fieldLine at *
  rw [String.data_append]
  exact h.trans (List.infix_append' [] a.data b.data |>.trans (by simp))

theorem fieldLine_of_mem_headerLines (h : List (String × List String)) :
    ∀ l ∈ headerLines h, fieldLine l := by
  intro l hl
  simp only [headerLines, List.mem_flatMap, List.mem_map] at hl
  obtain ⟨e, -, v, -, rfl⟩ := hl
  refine ⟨e.1.data, v.data, ?_⟩
  simp [String.data_append]

theorem fieldLine_of_mem_metaLines (r : Request) : ∀ l ∈ metaLines r, fieldLine l := by
  intro l hl
  simp only [metaLines, List.mem_cons, List.mem_singleton, List.not_mem_nil, or_false] at hl
  rcases hl with rfl | rfl | rfl | rfl
  · exact fieldLine_append_right _ _ (by decide)
  · decide
  · exact fieldLine_append_right _ _ (by decide)
  · exact fieldLine_append_right _ _ (by decide)

theorem not_mem_of_not_fieldLine (m : String) (hm : ¬ fieldLine m) (ls : List String)
    (hls : ∀ l ∈ ls, fieldLine l) : m ∉ ls :=
  fun h => hm (hls m h)

theorem count_eq_zero_of_not_fieldLine (m : String) (hm : ¬ fieldLine m) (ls : List String)
    (hls : ∀ l ∈ ls, fieldLine l) : ls.count m = 0 :=
  List.count_eq_zero.mpr (not_mem_of_not_fieldLine m hm ls hls)

/-- The lines of the head of the log block, for request data without line
breaks: the start marker, the four data lines, a blank line and the heading. -/
theorem flatMap_lines_headLines_eq (r : Request) (hm : r.Method = MethodPost)
    (hs : r.SingleLine) :
    (headLines r).flatMap lines
      = "=== Incoming POST Request ===" :: metaLines r ++ ["", "--- Headers ---"] := by
  rw [flatMap_lines_headLines r hm hs]
  rfl

/-! ## Responses -/

/-- C1, the claim fails as stated: the request `sampleGet` has a method other
than `POST`, and the body of its response is not the bare text
`Method not allowed` (a newline follows the text). -/
theorem non_post_body_not_bare_text :
    sampleGet.Method ≠ MethodPost
    ∧ (response (postHandler sampleGet)).body ≠ "Method not allowed" := by
  decide

/-- C1, amended: a request whose method is not `POST` is answered with status 405
and the plain-text body `Method not allowed` followed by a newline (`http.Error`
prints the text with `fmt.Fprintln`), and no JSON acknowledgment is written: the
only write to the response is that line and the content type is never set to
`application/json`. -/
theorem non_post_gets_405 (r : Request) (h : r.Method ≠ MethodPost) :
    (response (postHandler r)).status = some 405
    ∧ (response (postHandler r)).body = "Method not allowed" ++ "\n"
    ∧ (response (postHandler r)).sentHeader "Content-Type"
        = some "text/plain; charset=utf-8"
    ∧ (∀ s, Event.write s ∈ postHandler r → s = "Method not allowed" ++ "\n")
    ∧ Event.write ackJSON ∉ postHandler r
    ∧ Event.headerSet "Content-Type" "application/json" ∉ postHandler r := by
  rw [response_of_not_post r h, postHandler_of_not_post r h]
  refine ⟨rfl, rfl, by decide, ?_, by decide, by decide⟩
  intro s hs
  simpa [errorEvents] using hs

theorem non_post_gets_405_witness :
    sampleGet.Method ≠ MethodPost
    ∧ (response (postHandler sampleGet)).status = some 405
    ∧ (response (postHandler sampleGet)).body = "Method not allowed" ++ "\n" :=
  ⟨by decide, (non_post_gets_405 sampleGet (by decide)).1,
    (non_post_gets_405 sampleGet (by decide)).2.1⟩

/-- C2: a `POST` request whose body is read without error is answered with status
200, the header `Content-Type: application/json`, and a body exactly equal to the
acknowledgment literal, whatever the URL, headers and body are. -/
theorem post_ok_gets_ack (r : Request)
    (h : r.Method = MethodPost) (he : r.Body.err = none) :
    (response (postHandler r)).status = some 200
    ∧ (response (postHandler r)).sentHeader "Content-Type" = some "application/json"
    ∧ (response (postHandler r)).body
        = "\x7b\"status\": \"received\", \"message\": \"Request logged successfully\"\x7d" := by
  rw [response_of_read_ok r h he]
  exact ⟨rfl, by decide, by decide⟩

theorem post_ok_gets_ack_witness :
    samplePost.Method = MethodPost ∧ samplePost.Body.err = none
    ∧ (response (postHandler samplePost)).status = some 200
    ∧ (response (postHandler samplePost)).sentHeader "Content-Type"
        = some "application/json"
    ∧ (response (postHandler samplePost)).body
        = "\x7b\"status\": \"received\", \"message\": \"Request logged successfully\"\x7d" :=
  ⟨by decide, by decide, post_ok_gets_ack samplePost (by decide) (by decide)⟩

/-- C3, the claim fails as stated: the request `sampleAborted` is a `POST`
request whose body read fails, and the body of its response is not the bare text
`Error reading body` (a newline follows the text). -/
theorem read_error_body_not_bare_text :
    sampleAborted.Method = MethodPost
    ∧ sampleAborted.Body.err = some "unexpected EOF"
    ∧ (response (postHandler sampleAborted)).body ≠ "Error reading body" := by
  decide

/-- C3, amended: a `POST` request whose body read fails with error `e` is answered
with status 500 and the plain-text body `Error reading body` followed by a newline
(`http.Error` prints the text with `fmt.Fprintln`); the read error is logged (`Error reading body: e`
goes to the standard logger); and the handler stops there: the `http.Error` call
ends the trace, the content type is never set to `application/json` and no JSON
acknowledgment is written. -/
theorem read_error_gets_500 (r : Request) (e : String)
    (h : r.Method = MethodPost) (he : r.Body.err = some e) :
    (response (postHandler r)).status = some 500
    ∧ (response (postHandler r)).body = "Error reading body" ++ "\n"
    ∧ (response (postHandler r)).sentHeader "Content-Type"
        = some "text/plain; charset=utf-8"
    ∧ loggerMsgs (postHandler r) = ["Error reading body: " ++ e]
    ∧ (∃ before, postHandler r
        = before ++ Event.logger ("Error reading body: " ++ e)
            :: errorEvents "Error reading body" 500)
    ∧ (∀ s, Event.write s ∈ postHandler r → s = "Error reading body" ++ "\n")
    ∧ Event.write ackJSON ∉ postHandler r
    ∧ Event.headerSet "Content-Type" "application/json" ∉ postHandler r := by
  rw [response_of_read_error r e h he, postHandler_of_read_error r e h he]
  refine ⟨rfl, rfl, by decide, ?_, ⟨_, by
    rw [List.append_cons]; rfl⟩, ?_, ?_, ?_⟩
  · rw [loggerMsgs_append, loggerMsgs_outLines]; rfl
  · intro s hs
    simpa [errorEvents, outLine] using hs
  · simp [errorEvents, outLine, ackJSON]
  · simp [errorEvents, outLine]

theorem read_error_gets_500_witness :
    sampleAborted.Method = MethodPost ∧ sampleAborted.Body.err = some "unexpected EOF"
    ∧ (response (postHandler sampleAborted)).status = some 500
    ∧ (response (postHandler sampleAborted)).body = "Error reading body" ++ "\n" :=
  ⟨by decide, by decide,
    (read_error_gets_500 sampleAborted "unexpected EOF" (by decide) (by decide)).1,
    (read_error_gets_500 sampleAborted "unexpected EOF" (by decide) (by decide)).2.1⟩

/-- C4: a request whose method is not `POST` makes the handler emit nothing:
standard output after the call equals standard output before it, there is no
write to it at all, and nothing is handed to the logger. -/
theorem non_post_logs_nothing (r : Request) (h : r.Method ≠ MethodPost)
    (before : String) :
    consoleAfter before (postHandler r) = before
    ∧ stdoutWrites (postHandler r) = []
    ∧ loggerMsgs (postHandler r) = [] := by
  rw [postHandler_of_not_post r h]
  refine ⟨?_, rfl, rfl⟩
  apply String.ext
  simp [consoleAfter, errorEvents, stdoutWrites, String.data_append]

theorem non_post_logs_nothing_witness :
    sampleGet.Method ≠ MethodPost
    ∧ consoleAfter "Starting server on localhost:7860\n" (postHandler sampleGet)
        = "Starting server on localhost:7860\n"
    ∧ stdoutWrites (postHandler sampleGet) = []
    ∧ loggerMsgs (postHandler sampleGet) = [] :=
  ⟨by decide, non_post_logs_nothing sampleGet (by decide) _⟩

/-- C9: the status of the response is one of 200, 405 and 500 and is a function
of the method and of the outcome of reading the body alone: 405 exactly when the
method is not `POST`, 500 exactly when the method is `POST` and the read fails,
200 exactly when the method is `POST` and the read succeeds (so an empty body, a
content length of -1 or any headers never give an error status). -/
theorem status_by_method_and_read (r : Request) :
    (response (postHandler r)).status
        = some (if r.Method ≠ MethodPost then 405
                else if r.Body.err.isSome then 500 else 200)
    ∧ ((response (postHandler r)).status = some 405 ↔ r.Method ≠ MethodPost)
    ∧ ((response (postHandler r)).status = some 500
        ↔ r.Method = MethodPost ∧ r.Body.err ≠ none)
    ∧ ((response (postHandler r)).status = some 200
        ↔ r.Method = MethodPost ∧ r.Body.err = none)
    ∧ ((response (postHandler r)).status = some 200
        ∨ (response (postHandler r)).status = some 405
        ∨ (response (postHandler r)).status = some 500) := by
  by_cases h : r.Method = MethodPost
  · cases he : r.Body.err with
    | none => rw [response_of_read_ok r h he]; simp [h]
    | some e => rw [response_of_read_error r e h he]; simp [h]
  · rw [response_of_not_post r h]; simp [h]

/-- C8: for a `POST` request whose body is read without error, the body is closed
when the handler returns, whether the body was empty or not, and the close is the
last thing that happens: it comes after the read, after every write to standard
output (the whole log block) and after the response has been written. -/
theorem body_closed_last (r : Request)
    (h : r.Method = MethodPost) (he : r.Body.err = none) :
    Event.closeBody ∈ postHandler r
    ∧ ∃ before, postHandler r = before ++ [Event.closeBody]
        ∧ Event.closeBody ∉ before
        ∧ Event.readAll ∈ before
        ∧ stdoutWrites before = stdoutWrites (postHandler r)
        ∧ outLine "=== End of Request ===\n" ∈ before
        ∧ Event.write ackJSON ∈ before
        ∧ response before = response (postHandler r) := by
  rw [postHandler_of_read_ok r h he]
  refine ⟨by simp, (headLines r ++ headerLines r.Header ++ ["\n--- Body ---"]).map outLine
        ++ [Event.readAll, outLine (bodyLine r.Body.data), outLine "=== End of Request ===\n",
            Event.headerSet "Content-Type" "application/json",
            Event.writeHeader StatusOK, Event.write ackJSON], by simp, ?_, by simp, ?_,
            by simp, by simp, ?_⟩
  · simp [outLine]
  · simp [stdoutWrites_append, stdoutWrites, outLine]
  · rw [response_outLines_append, response_outLines_append]; rfl

theorem body_closed_last_witness :
    sampleEmpty.Method = MethodPost ∧ sampleEmpty.Body.err = none
    ∧ Event.closeBody ∈ postHandler sampleEmpty :=
  ⟨by decide, by decide, (body_closed_last sampleEmpty (by decide) (by decide)).1⟩

/-! ## The log block -/

theorem infix_headerLines_of_mem (h : List (String × List String))
    (e : String × List String) (he : e ∈ h) :
    e.2.map (fun v => e.1 ++ ": " ++ v) <:+: headerLines h := by
  obtain ⟨a, b, rfl⟩ := List.append_of_mem he
  refine ⟨headerLines a, headerLines b, ?_⟩
  simp [headerLines, List.flatMap_append, List.flatMap_cons]

theorem length_headerLines (h : List (String × List String)) :
    (headerLines h).length = (h.map (fun e => e.2.length)).sum := by
  induction h with
  | nil => rfl
  | cons e h ih =>
    simp only [headerLines, List.flatMap_cons, List.length_append, List.length_map,
      List.map_cons, List.sum_cons] at ih ⊢
    rw [ih]

/-- C5: for a `POST` request the handler logs one line `name: value` per header
value.  The writes between the `--- Headers ---` heading and the `--- Body ---`
heading are exactly the header lines, each followed by its newline; a name with
`n` values gives `n` consecutive lines in the order its values are held; the
number of header lines is the total number of header values; and what follows the
body heading is no header line (nothing on a failed read, the body line and the
end marker otherwise).  For request data without line breaks the header lines are
also consecutive lines of the console text. -/
theorem header_lines_one_per_value (r : Request) (h : r.Method = MethodPost) :
    (∃ rest, stdoutWrites (postHandler r)
        = (headLines r).map (fun l => l ++ "\n")
          ++ (headerLines r.Header).map (fun l => l ++ "\n")
          ++ "\n--- Body ---\n" :: rest
        ∧ (rest = [] ∨ rest = [bodyLine r.Body.data ++ "\n", "=== End of Request ===\n\n"]))
    ∧ (headLines r).getLast? = some "\n--- Headers ---"
    ∧ (headerLines r.Header).length = (r.Header.map (fun e => e.2.length)).sum
    ∧ (∀ e ∈ r.Header, e.2.map (fun v => e.1 ++ ": " ++ v) <:+: headerLines r.Header)
    ∧ (r.SingleLine → headerLines r.Header <:+: lines (consoleText (postHandler r))) := by
  refine ⟨?_, rfl, length_headerLines _, infix_headerLines_of_mem _, ?_⟩
  · cases he : r.Body.err with
    | none =>
      refine ⟨[bodyLine r.Body.data ++ "\n", "=== End of Request ===\n\n"], ?_, Or.inr rfl⟩
      rw [stdoutWrites_of_read_ok r h he]
      simp only [List.map_append, List.map_cons, List.map_nil, List.append_assoc]
      rfl
    | some e =>
      refine ⟨[], ?_, Or.inl rfl⟩
      rw [stdoutWrites_of_read_error r e h he]
      simp only [List.map_append, List.map_cons, List.map_nil, List.append_assoc]
      rfl
  · intro hs
    have hh : (headerLines r.Header).flatMap lines = headerLines r.Header :=
      flatMap_lines_of_singleLine _ (singleLine_of_mem_headerLines _ hs.2.2)
    cases he : r.Body.err with
    | none =>
      rw [lines_console_of_read_ok r h he, hh]
      exact ⟨(headLines r).flatMap lines,
        ["", "--- Body ---"] ++ lines (bodyLine r.Body.data)
          ++ ["=== End of Request ===", "", ""], by simp⟩
    | some e =>
      rw [lines_console_of_read_error r e h he, hh]
      exact ⟨(headLines r).flatMap lines, ["", "--- Body ---", ""], by simp⟩

theorem header_lines_one_per_value_witness :
    samplePost.Method = MethodPost
    ∧ headerLines samplePost.Header = ["X-Custom: a", "X-Custom: b", "Content-Type: text/plain"]
    ∧ (headerLines samplePost.Header).length
        = (samplePost.Header.map (fun e => e.2.length)).sum
    ∧ (samplePost.SingleLine →
        headerLines samplePost.Header <:+: lines (consoleText (postHandler samplePost))) :=
  ⟨by decide, by decide,
    (header_lines_one_per_value samplePost (by decide)).2.2.1,
    (header_lines_one_per_value samplePost (by decide)).2.2.2.2⟩

theorem append_ne_of_head (a b m : String) (c d : Char)
    (ha : a.data.head? = some c) (hm : m.data.head? = some d) (hcd : c ≠ d) :
    a ++ b ≠ m := by
  intro e
  have hd : (a ++ b).data.head? = m.data.head? := by rw [e]
  rw [String.data_append] at hd
  cases hx : a.data with
  | nil => rw [hx] at ha; simp at ha
  | cons x xs =>
    rw [hx] at ha hd
    simp only [List.cons_append, List.head?_cons, hm, Option.some.injEq] at ha hd
    exact hcd (ha ▸ hd)

theorem fieldLine_newline (l : String) (h : fieldLine l) : fieldLine (l ++ "\n") :=
  fieldLine_append_right l "\n" h

/-- The writes that carry request data never equal a write without `: `. -/
theorem count_writes_eq_zero (m : String) (hm : ¬ fieldLine m) (ls : List String)
    (hls : ∀ l ∈ ls, fieldLine l) : (ls.map (fun l => l ++ "\n")).count m = 0 := by
  apply count_eq_zero_of_not_fieldLine m hm
  intro l hl
  obtain ⟨x, hx, rfl⟩ := List.mem_map.mp hl
  exact fieldLine_newline x (hls x hx)

theorem bodyLine_newline_ne (body m : String) (hm : m.data.head? = some '=') :
    bodyLine body ++ "\n" ≠ m := by
  unfold bodyLine
  split_ifs
  · have : "Body content:\n" ++ body ++ "\n" = "Body content:\n" ++ (body ++ "\n") := by
      apply String.ext; simp [String.data_append]
    rw [this]
    exact append_ne_of_head _ _ m 'B' '=' rfl hm (by decide)
  · exact append_ne_of_head _ _ m 'B' '=' rfl hm (by decide)

theorem map_newline_headLines (r : Request) (h : r.Method = MethodPost) :
    (headLines r).map (fun l => l ++ "\n")
      = "=== Incoming POST Request ===\n" :: (metaLines r).map (fun l => l ++ "\n")
        ++ ["\n--- Headers ---\n"] := by
  simp only [headLines, metaLines, h, List.map_cons, List.map_nil]
  rfl

/-- The number of writes equal to a text `m` that holds no `: ` and starts with
`=`, on the success path: only the two marker writes can count. -/
theorem count_marker_writes (r : Request) (h : r.Method = MethodPost)
    (he : r.Body.err = none) (m : String) (hm : ¬ fieldLine m)
    (hh : m.data.head? = some '=') :
    (stdoutWrites (postHandler r)).count m
      = (if "=== Incoming POST Request ===\n" = m then 1 else 0)
        + (if "=== End of Request ===\n\n" = m then 1 else 0) := by
  rw [stdoutWrites_of_read_ok r h he]
  simp only [List.map_append, map_newline_headLines r h, List.count_append,
    List.count_cons, List.map_cons, List.map_nil, List.count_nil,
    count_writes_eq_zero m hm _ (fieldLine_of_mem_metaLines r),
    count_writes_eq_zero m hm _ (fieldLine_of_mem_headerLines r.Header)]
  have h1 : ("\n--- Headers ---\n" == m) = false := by
    rw [beq_eq_false_iff_ne]
    intro e; rw [← e] at hh; exact absurd hh (by decide)
  have h2 : ("\n--- Body ---" ++ "\n" == m) = false := by
    rw [beq_eq_false_iff_ne]
    intro e; rw [← e] at hh; exact absurd hh (by decide)
  have h3 : (bodyLine r.Body.data ++ "\n" == m) = false := by
    rw [beq_eq_false_iff_ne]
    exact bodyLine_newline_ne _ m hh
  have h4 : "=== End of Request ===\n" ++ "\n" = "=== End of Request ===\n\n" := rfl
  simp only [h1, h2, h3, h4, beq_iff_eq]
  simp

/-- The lines of the console text of a logged request whose data hold no line
break. -/
theorem lines_console_of_singleLine (r : Request)
    (h : r.Method = MethodPost) (he : r.Body.err = none) (hs : r.SingleLine) :
    lines (consoleText (postHandler r))
      = "=== Incoming POST Request ===" :: metaLines r ++ ["", "--- Headers ---"]
        ++ headerLines r.Header ++ ["", "--- Body ---"] ++ lines (bodyLine r.Body.data)
        ++ ["=== End of Request ===", "", ""] := by
  rw [lines_console_of_read_ok r h he, flatMap_lines_headLines_eq r h hs,
    flatMap_lines_of_singleLine _ (singleLine_of_mem_headerLines _ hs.2.2)]

/-- The number of lines equal to a marker in the listed lines of the log block:
the marker itself once, and the occurrences inside the logged body. -/
theorem count_marker_lines (r : Request) (m : String) (hm : ¬ fieldLine m)
    (hmk : m = "=== Incoming POST Request ===" ∨ m = "=== End of Request ===") :
    ("=== Incoming POST Request ===" :: metaLines r ++ ["", "--- Headers ---"]
        ++ headerLines r.Header ++ ["", "--- Body ---"] ++ lines (bodyLine r.Body.data)
        ++ ["=== End of Request ===", "", ""]).count m
      = 1 + (bodyDataLines r.Body.data).count m := by
  rw [lines_bodyLine]
  simp only [List.cons_append, List.count_append, List.count_cons, List.count_nil,
    count_eq_zero_of_not_fieldLine m hm _ (fieldLine_of_mem_metaLines r),
    count_eq_zero_of_not_fieldLine m hm _ (fieldLine_of_mem_headerLines r.Header),
    bodyDataLines]
  rcases hmk with rfl | rfl
  · have e1 : ("" == "=== Incoming POST Request ===") = false := by decide
    have e2 : ("--- Headers ---" == "=== Incoming POST Request ===") = false := by decide
    have e3 : ("--- Body ---" == "=== Incoming POST Request ===") = false := by decide
    have e4 : ("=== End of Request ===" == "=== Incoming POST Request ===") = false := by
      decide
    have e5 : ("Body content:" == "=== Incoming POST Request ===") = false := by decide
    have e6 : ("Body is empty" == "=== Incoming POST Request ===") = false := by decide
    by_cases hb : r.Body.data.length > 0
    · simp only [hb, if_true, List.count_cons, e1, e2, e3, e4, e5, beq_self_eq_true]
      simp; omega
    · simp only [hb, if_false, List.count_cons, List.count_nil, e1, e2, e3, e4, e6,
        beq_self_eq_true]
      simp
  · have e1 : ("" == "=== End of Request ===") = false := by decide
    have e2 : ("--- Headers ---" == "=== End of Request ===") = false := by decide
    have e3 : ("--- Body ---" == "=== End of Request ===") = false := by decide
    have e4 : ("=== Incoming POST Request ===" == "=== End of Request ===") = false := by
      decide
    have e5 : ("Body content:" == "=== End of Request ===") = false := by decide
    have e6 : ("Body is empty" == "=== End of Request ===") = false := by decide
    by_cases hb : r.Body.data.length > 0
    · simp only [hb, if_true, List.count_cons, e1, e2, e3, e4, e5, beq_self_eq_true]
      simp; omega
    · simp only [hb, if_false, List.count_cons, List.count_nil, e1, e2, e3, e4, e6,
        beq_self_eq_true]
      simp

/-- C7: the log block of a `POST` request whose body is read without error is
bracketed and ordered.  The writes to standard output are, in this order: the
start marker, the URL, the method, the remote address, the content length, the
header heading, the header lines, the body heading, the body line, the end
marker.  The first line of the console text is `=== Incoming POST Request ===`
and its last non-blank line is `=== End of Request ===`.  Each marker is printed
by exactly one write of the handler.  For request data without line breaks the
console text is the listed lines, and a marker occurs in it once plus the number
of times it occurs inside the logged body. -/
theorem log_block_bracketed (r : Request)
    (h : r.Method = MethodPost) (he : r.Body.err = none) :
    stdoutWrites (postHandler r)
        = ["=== Incoming POST Request ===\n", "URL: " ++ r.URL ++ "\n", "Method: POST\n",
           "Remote Address: " ++ r.RemoteAddr ++ "\n",
           "Content-Length: " ++ toString r.ContentLength ++ "\n", "\n--- Headers ---\n"]
          ++ (headerLines r.Header).map (fun l => l ++ "\n")
          ++ ["\n--- Body ---\n", bodyLine r.Body.data ++ "\n", "=== End of Request ===\n\n"]
    ∧ (lines (consoleText (postHandler r))).head? = some "=== Incoming POST Request ==="
    ∧ lastNonBlank (lines (consoleText (postHandler r))) = some "=== End of Request ==="
    ∧ (stdoutWrites (postHandler r)).count "=== Incoming POST Request ===\n" = 1
    ∧ (stdoutWrites (postHandler r)).count "=== End of Request ===\n\n" = 1
    ∧ (r.SingleLine →
        lines (consoleText (postHandler r))
          = "=== Incoming POST Request ===" :: metaLines r ++ ["", "--- Headers ---"]
            ++ headerLines r.Header ++ ["", "--- Body ---"] ++ lines (bodyLine r.Body.data)
            ++ ["=== End of Request ===", "", ""]
        ∧ (lines (consoleText (postHandler r))).count "=== Incoming POST Request ==="
            = 1 + (bodyDataLines r.Body.data).count "=== Incoming POST Request ==="
        ∧ (lines (consoleText (postHandler r))).count "=== End of Request ==="
            = 1 + (bodyDataLines r.Body.data).count "=== End of Request ===") := by
  refine ⟨?_, ?_, ?_, ?_, ?_, ?_⟩
  · rw [stdoutWrites_of_read_ok r h he]
    simp only [List.map_append, map_newline_headLines r h, metaLines, List.map_cons,
      List.map_nil, List.cons_append, List.nil_append, List.append_assoc]
    rfl
  · rw [lines_console_of_read_ok r h he]
    simp only [headLines, List.flatMap_cons]
    have : lines "=== Incoming POST Request ===" = ["=== Incoming POST Request ==="] := by
      decide
    rw [this]
    rfl
  · rw [lines_console_of_read_ok r h he]
    unfold lastNonBlank
    rw [List.filter_append]
    have : List.filter (fun l => decide (l ≠ "")) ["=== End of Request ===", "", ""]
        = ["=== End of Request ==="] := by decide
    rw [this, List.getLast?_append]
    rfl
  · rw [count_marker_writes r h he _ (by decide) (by decide)]
    decide
  · rw [count_marker_writes r h he _ (by decide) (by decide)]
    decide
  · intro hs
    refine ⟨lines_console_of_singleLine r h he hs, ?_, ?_⟩
    · rw [lines_console_of_singleLine r h he hs]
      exact count_marker_lines r _ (by decide) (Or.inl rfl)
    · rw [lines_console_of_singleLine r h he hs]
      exact count_marker_lines r _ (by decide) (Or.inr rfl)

theorem log_block_bracketed_witness :
    samplePost.Method = MethodPost ∧ samplePost.Body.err = none
    ∧ (lines (consoleText (postHandler samplePost))).head?
        = some "=== Incoming POST Request ==="
    ∧ lastNonBlank (lines (consoleText (postHandler samplePost)))
        = some "=== End of Request ===" :=
  ⟨by decide, by decide,
    (log_block_bracketed samplePost (by decide) (by decide)).2.1,
    (log_block_bracketed samplePost (by decide) (by decide)).2.2.1⟩

/-- A text that holds no `: ` and is none of the fixed lines of the head of the
log block is not a line of that head. -/
theorem not_mem_block_head (r : Request) (m : String) (hm : ¬ fieldLine m)
    (h0 : m ≠ "=== Incoming POST Request ===") (h1 : m ≠ "")
    (h2 : m ≠ "--- Headers ---") (h3 : m ≠ "--- Body ---") :
    m ∉ "=== Incoming POST Request ===" :: metaLines r ++ ["", "--- Headers ---"]
        ++ headerLines r.Header ++ ["", "--- Body ---"] := by
  have hM := not_mem_of_not_fieldLine m hm _ (fieldLine_of_mem_metaLines r)
  have hH := not_mem_of_not_fieldLine m hm _ (fieldLine_of_mem_headerLines r.Header)
  simp only [List.cons_append, List.mem_cons, List.mem_append, List.not_mem_nil, or_false,
    not_or]
  exact ⟨h0, ⟨⟨⟨hM, h1, h2⟩, hH⟩, h1, h3⟩⟩

theorem mem_block_iff_mem_body (A B C : List String) (m x : String)
    (hA : m ∉ A) (hx : m ≠ x) (hC : m ∉ C) : m ∈ A ++ x :: B ++ C ↔ m ∈ B := by
  simp [hA, hx, hC]

/-- C6, the claim fails as stated: the request `sampleEcho` is a `POST` request
whose body, `Body is empty`, is non-empty and read without error, and its log
holds a line `Body is empty`. -/
theorem notice_line_from_body_data :
    sampleEcho.Method = MethodPost ∧ sampleEcho.Body.err = none
    ∧ sampleEcho.Body.data.length > 0
    ∧ "Body is empty" ∈ lines (consoleText (postHandler sampleEcho)) := by
  decide

/-- C6, amended: for a `POST` request whose body is read without error, the
handler prints, after the body heading, the line `Body is empty` when the body has
length 0 and the marker line `Body content:` immediately followed by the bytes of
the body when it has not, and then the end marker; it prints the notice only in
the first case and the marker only in the second.  A further line reading
`Body content:` or `Body is empty` comes from logged request data only: for
request data without line breaks, an empty body gives no `Body content:` line,
and a non-empty body gives a `Body is empty` line exactly when the body itself
holds that line. -/
theorem body_logged_or_notice (r : Request)
    (h : r.Method = MethodPost) (he : r.Body.err = none) :
    (r.Body.data.length = 0 →
      stdoutWrites (postHandler r)
          = (headLines r ++ headerLines r.Header
              ++ ["\n--- Body ---", "Body is empty", "=== End of Request ===\n"]).map
                (fun l => l ++ "\n")
      ∧ "Body is empty" ∈ lines (consoleText (postHandler r))
      ∧ (r.SingleLine → "Body content:" ∉ lines (consoleText (postHandler r))))
    ∧ (r.Body.data.length > 0 →
      stdoutWrites (postHandler r)
          = (headLines r ++ headerLines r.Header
              ++ ["\n--- Body ---", "Body content:\n" ++ r.Body.data,
                  "=== End of Request ===\n"]).map (fun l => l ++ "\n")
      ∧ (∃ before, lines (consoleText (postHandler r))
          = before ++ "Body content:" :: lines r.Body.data
            ++ ["=== End of Request ===", "", ""])
      ∧ (r.SingleLine →
          ("Body is empty" ∈ lines (consoleText (postHandler r))
            ↔ "Body is empty" ∈ lines r.Body.data))) := by
  constructor
  · intro hb
    have hb' : ¬ r.Body.data.length > 0 := by omega
    have hbl : bodyLine r.Body.data = "Body is empty" := by simp [bodyLine, hb']
    refine ⟨?_, ?_, ?_⟩
    · rw [stdoutWrites_of_read_ok r h he, hbl]
    · rw [lines_console_of_read_ok r h he, hbl]
      have : lines "Body is empty" = ["Body is empty"] := by decide
      rw [this]
      simp
    · intro hs
      rw [lines_console_of_singleLine r h he hs, hbl]
      have : lines "Body is empty" = ["Body is empty"] := by decide
      rw [this, List.append_assoc, List.mem_append, not_or]
      exact ⟨not_mem_block_head r _ (by decide) (by decide) (by decide) (by decide)
        (by decide), by decide⟩
  · intro hb
    have hbl : bodyLine r.Body.data = "Body content:\n" ++ r.Body.data := by
      simp [bodyLine, hb]
    have hl : lines (bodyLine r.Body.data) = "Body content:" :: lines r.Body.data := by
      rw [lines_bodyLine]; simp [hb]
    refine ⟨?_, ?_, ?_⟩
    · rw [stdoutWrites_of_read_ok r h he, hbl]
    · rw [lines_console_of_read_ok r h he, hl]
      exact ⟨(headLines r).flatMap lines ++ (headerLines r.Header).flatMap lines
        ++ ["", "--- Body ---"], rfl⟩
    · intro hs
      rw [lines_console_of_singleLine r h he hs, hl]
      exact mem_block_iff_mem_body _ _ _ _ _
        (not_mem_block_head r "Body is empty" (by decide) (by decide) (by decide)
          (by decide) (by decide))
        (by decide) (by decide)

theorem body_logged_or_notice_witness :
    samplePost.Method = MethodPost ∧ samplePost.Body.err = none
    ∧ samplePost.Body.data.length > 0 ∧ samplePost.SingleLine
    ∧ (∃ before, lines (consoleText (postHandler samplePost))
        = before ++ "Body content:" :: lines "hello world"
          ++ ["=== End of Request ===", "", ""])
    ∧ ("Body is empty" ∈ lines (consoleText (postHandler samplePost))
        ↔ "Body is empty" ∈ lines "hello world") :=
  ⟨by decide, by decide, by decide, by decide,
    ((body_logged_or_notice samplePost (by decide) (by decide)).2 (by decide)).2.1,
    ((body_logged_or_notice samplePost (by decide) (by decide)).2 (by decide)).2.2
      (by decide)⟩

/-- C10: for a `POST` request whose body read fails, the log the handler has
emitted when it returns contains the start marker, the URL, method, remote
address and content length lines, every header line and the `--- Body ---`
heading, but neither `Body content:`, nor `Body is empty`, nor the end marker
`=== End of Request ===`: the block is left unclosed.  The writes to standard
output are exactly those lines, for every input; the message handed to the logger
is the read error and is none of the three lines; and for request data as the
HTTP server delivers them (no line break in the URL, the remote address, the
header names and values) the console text is the listed lines, it contains each
of the lines named and none of the three. -/
theorem read_error_log_left_open (r : Request) (e : String)
    (h : r.Method = MethodPost) (he : r.Body.err = some e) :
    stdoutWrites (postHandler r)
        = ["=== Incoming POST Request ===\n", "URL: " ++ r.URL ++ "\n", "Method: POST\n",
           "Remote Address: " ++ r.RemoteAddr ++ "\n",
           "Content-Length: " ++ toString r.ContentLength ++ "\n", "\n--- Headers ---\n"]
          ++ (headerLines r.Header).map (fun l => l ++ "\n")
          ++ ["\n--- Body ---\n"]
    ∧ loggerMsgs (postHandler r) = ["Error reading body: " ++ e]
    ∧ (∀ m ∈ loggerMsgs (postHandler r),
        m ≠ "Body content:" ∧ m ≠ "Body is empty" ∧ m ≠ "=== End of Request ===")
    ∧ (r.SingleLine →
        lines (consoleText (postHandler r))
          = "=== Incoming POST Request ===" :: metaLines r ++ ["", "--- Headers ---"]
            ++ headerLines r.Header ++ ["", "--- Body ---", ""]
        ∧ "=== Incoming POST Request ===" ∈ lines (consoleText (postHandler r))
        ∧ "URL: " ++ r.URL ∈ lines (consoleText (postHandler r))
        ∧ "Method: POST" ∈ lines (consoleText (postHandler r))
        ∧ "Remote Address: " ++ r.RemoteAddr ∈ lines (consoleText (postHandler r))
        ∧ "Content-Length: " ++ toString r.ContentLength
            ∈ lines (consoleText (postHandler r))
        ∧ (∀ l ∈ headerLines r.Header, l ∈ lines (consoleText (postHandler r)))
        ∧ "--- Body ---" ∈ lines (consoleText (postHandler r))
        ∧ "Body content:" ∉ lines (consoleText (postHandler r))
        ∧ "Body is empty" ∉ lines (consoleText (postHandler r))
        ∧ "=== End of Request ===" ∉ lines (consoleText (postHandler r))) := by
  have hlog : loggerMsgs (postHandler r) = ["Error reading body: " ++ e] := by
    rw [postHandler_of_read_error r e h he, loggerMsgs_append, loggerMsgs_outLines]
    rfl
  refine ⟨?_, hlog, ?_, ?_⟩
  · rw [stdoutWrites_of_read_error r e h he]
    simp only [List.map_append, map_newline_headLines r h, metaLines, List.map_cons,
      List.map_nil, List.cons_append, List.nil_append, List.append_assoc]
    rfl
  · intro m hm
    rw [hlog, List.mem_singleton] at hm
    have hf : fieldLine m := by
      rw [hm]; exact fieldLine_append_right _ _ (by decide)
    refine ⟨?_, ?_, ?_⟩ <;> intro hx <;> rw [hx] at hf <;> exact absurd hf (by decide)
  · intro hs
    have hl : lines (consoleText (postHandler r))
        = ("=== Incoming POST Request ===" :: metaLines r ++ ["", "--- Headers ---"]
            ++ headerLines r.Header ++ ["", "--- Body ---"]) ++ [""] := by
      rw [lines_console_of_read_error r e h he, flatMap_lines_headLines_eq r h hs,
        flatMap_lines_of_singleLine _ (singleLine_of_mem_headerLines _ hs.2.2)]
      simp
    refine ⟨by rw [hl]; simp, ?_, ?_, ?_, ?_, ?_, ?_, ?_, ?_, ?_, ?_⟩
    · rw [hl]; simp
    · rw [hl]; simp [metaLines]
    · rw [hl]; simp [metaLines]
    · rw [hl]; simp [metaLines]
    · rw [hl]; simp [metaLines]
    · intro l hx; rw [hl]; simp [hx]
    · rw [hl]; simp
    · rw [hl, List.mem_append, not_or]
      exact ⟨not_mem_block_head r _ (by decide) (by decide) (by decide) (by decide)
        (by decide), by decide⟩
    · rw [hl, List.mem_append, not_or]
      exact ⟨not_mem_block_head r _ (by decide) (by decide) (by decide) (by decide)
        (by decide), by decide⟩
    · rw [hl, List.mem_append, not_or]
      exact ⟨not_mem_block_head r _ (by decide) (by decide) (by decide) (by decide)
        (by decide), by decide⟩

theorem read_error_log_left_open_witness :
    sampleAborted.Method = MethodPost ∧ sampleAborted.Body.err = some "unexpected EOF"
    ∧ sampleAborted.SingleLine
    ∧ "=== Incoming POST Request ===" ∈ lines (consoleText (postHandler sampleAborted))
    ∧ "--- Body ---" ∈ lines (consoleText (postHandler sampleAborted))
    ∧ "Body content:" ∉ lines (consoleText (postHandler sampleAborted))
    ∧ "Body is empty" ∉ lines (consoleText (postHandler sampleAborted))
    ∧ "=== End of Request ===" ∉ lines (consoleText (postHandler sampleAborted)) :=
  ⟨by decide, by decide, by decide,
    ((read_error_log_left_open sampleAborted "unexpected EOF" (by decide) (by decide)).2.2.2
      (by decide)).2.1,
    ((read_error_log_left_open sampleAborted "unexpected EOF" (by decide) (by decide)).2.2.2
      (by decide)).2.2.2.2.2.2.2.1,
    ((read_error_log_left_open sampleAborted "unexpected EOF" (by decide) (by decide)).2.2.2
      (by decide)).2.2.2.2.2.2.2.2⟩

end TestServer
